import Mathlib

/- Shallow embedding of the schema-validation and error-normalization engine
   of the resume-craft backend: the error normalizer formatAjvErrors and the
   schema-fragment factories from the common-validations module, and the
   AJV custom keywords and ajvSchemaValidator from the validator module. -/

/-- JavaScript string-or-default `o || d`, where both undefined and the
empty string are falsy. -/
def jsOr (o : Option String) (d : String) : String :=
  match o with
  | some s => if s == "" then d else s
  | none => d

/-- JavaScript template interpolation of a possibly-undefined string
(undefined renders as the text "undefined"). -/
def jsShow (o : Option String) : String :=
  match o with
  | some s => s
  | none => "undefined"

/-- ASCII lower-casing, modelling String.prototype.toLowerCase on the
ASCII strings handled by the validator. -/
def jsToLower (s : String) : String := String.mk (s.data.map Char.toLower)

/-- Split a character list at a separator character. -/
def splitCharAux (sep : Char) : List Char → List Char → List (List Char)
  | [], acc => [acc.reverse]
  | c :: cs, acc =>
      if c = sep then acc.reverse :: splitCharAux sep cs []
      else splitCharAux sep cs (c :: acc)

/-- JavaScript s.split(sep) for a one-character separator; note that
splitting the empty string yields a list holding one empty string, as in
JavaScript. -/
def jsSplit (sep : Char) (s : String) : List String :=
  (splitCharAux sep s.data []).map String.mk

/-- JavaScript Array.prototype.join with a separator. -/
def joinSep (sep : String) : List String → String
  | [] => ""
  | [x] => x
  | x :: xs => x ++ sep ++ joinSep sep xs

/-- JavaScript s.startsWith(p). -/
def strStartsWith (s p : String) : Bool := p.data.isPrefixOf s.data

/-- The regular expression test /^\d+$/ used by the normalizer. -/
def isAllDigits (s : String) : Bool := !s.data.isEmpty && s.data.all Char.isDigit

/- ===== Error normalizer (formatAjvErrors, common-validations module) ===== -/

/-- One element of an errorMessage-wrapped raw error's params.errors list,
restricted to the fields the normalizer reads.  The normalizer reads
nested.parentSchema.errorMessage.additionalProperties through plain member
access; we model the value it finds (when the chain is defined) as an
Option. -/
structure NestedErr where
  keyword : String
  message : Option String := none
  additionalProperty : Option String := none
  parentEMadditionalProperties : Option String := none
deriving DecidableEq

/-- An AJV ErrorObject, restricted to the fields formatAjvErrors reads.
Option models a possibly-absent (undefined) member; instancePath is ""
for root-level errors, as in AJV. -/
structure RawError where
  keyword : String
  instancePath : String := ""
  message : Option String := none
  missingProperty : Option String := none
  additionalProperty : Option String := none
  formatParam : Option String := none
  typeParam : Option String := none
  allowedValues : Option (List String) := none
  nestedErrors : Option (List NestedErr) := none
  parentSchemaEnum : Option (List String) := none
  parentEMtype : Option String := none
  parentEMpattern : Option String := none
deriving DecidableEq

/-- The record the normalizer stores per derived field name in its Map. -/
structure Entry where
  field : String
  message : String
  priority : Nat
  path : Option (List String) := none
deriving DecidableEq

/-- The caller-facing error shape; path is omitted (none) when the raw
error had no instance path. -/
structure ValidationError where
  field : String
  message : String
  path : Option (List String) := none
deriving DecidableEq

/-- The result of ajvSchemaValidator. -/
structure ValidationResult where
  isValid : Bool
  errors : Option (List ValidationError)
deriving DecidableEq

/-- The local helper _formatArrayPath: drop the leading slash, split on
slashes, drop empty segments, then render all-digit segments as a bracket
suffix and other segments dot-separated. -/
def formatArrayPathAux : List String → Nat → String → String
  | [], _, res => res
  | p :: rest, i, res =>
      let res' :=
        if isAllDigits p then res ++ "[" ++ p ++ "]"
        else if i == 0 then res ++ p
        else res ++ "." ++ p
      formatArrayPathAux rest (i + 1) res'

def formatArrayPath (path : String) : String :=
  if path == "" then ""
  else formatArrayPathAux
    ((jsSplit '/' (String.mk (path.data.drop 1))).filter (fun t => t != "")) 0 ""

/-- The local helper _getFieldFromPath: bracket rendering when the path
holds a slash and any digit, otherwise drop the leading slash and turn
slashes into dots. -/
def getFieldFromPath (path : String) : String :=
  if path == "" then ""
  else if path.data.contains '/' && path.data.any Char.isDigit then formatArrayPath path
  else String.mk ((path.data.drop 1).map (fun c => if c = '/' then '.' else c))

/-- instancePath.split('/').filter(Boolean), the path stored with an
entry. -/
def pathSegments (p : String) : List String := (jsSplit '/' p).filter (fun t => t != "")

/-- The local helper _getFormatErrorMessage. -/
def getFormatErrorMessage (e : RawError) : String :=
  match e.formatParam with
  | some "email" => "Please enter a valid email address"
  | some "date-time" => "Please enter a valid date and time"
  | some "uuid" => "Invalid ID format"
  | _ => jsOr e.message "Invalid format"

/-- The local helper _getTypeErrorMessage; a present (even empty)
parentSchema.enum is truthy in JavaScript, an empty errorMessage.type
override is falsy. -/
def getTypeErrorMessage (e : RawError) : String :=
  let field := getFieldFromPath e.instancePath
  match e.parentSchemaEnum with
  | some vs => field ++ " must be one of: " ++ joinSep ", " vs
  | none =>
      match e.parentEMtype with
      | some t => if t == "" then field ++ " must be a " ++ jsShow e.typeParam else t
      | none => field ++ " must be a " ++ jsShow e.typeParam

/-- The local helper _getEnumErrorMessage. -/
def getEnumErrorMessage (e : RawError) : String :=
  match e.allowedValues with
  | some vs => "Must be one of: " ++ joinSep ", " vs
  | none => "Invalid value selected"

/-- error.params?.errors?.[0]?.message, used by the required branch. -/
def nestedHeadMessage (o : Option (List NestedErr)) : Option String :=
  match o with
  | some (n :: _) => n.message
  | _ => none

/-- The entry the keyword switch of formatAjvErrors builds for one raw
error (field, message, priority and path as assigned per keyword). -/
def switchEntry (e : RawError) : Entry :=
  let path : Option (List String) :=
    if e.instancePath == "" then none else some (pathSegments e.instancePath)
  if e.keyword == "required" then
    let field := jsOr e.missingProperty ""
    { field := field
      message := jsOr (nestedHeadMessage e.nestedErrors) ("The field '" ++ field ++ "' is required")
      priority := 1, path := path }
  else if e.keyword == "format" then
    { field := getFieldFromPath e.instancePath, message := getFormatErrorMessage e
      priority := 3, path := path }
  else if e.keyword == "type" then
    { field := getFieldFromPath e.instancePath, message := getTypeErrorMessage e
      priority := 2, path := path }
  else if e.keyword == "enum" then
    { field := getFieldFromPath e.instancePath, message := getEnumErrorMessage e
      priority := 2, path := path }
  else if e.keyword == "pattern" then
    { field := getFieldFromPath e.instancePath, message := jsOr e.parentEMpattern "Invalid format"
      priority := 2, path := path }
  else if e.keyword == "additionalProperties" then
    let field := jsOr e.additionalProperty ""
    { field := field, message := "The property '" ++ field ++ "' is not allowed"
      priority := 2, path := path }
  else
    { field := getFieldFromPath e.instancePath, message := jsOr e.message "Validation error"
      priority := 1, path := path }

/-- errorMap.get. -/
def mapGet (m : List Entry) (f : String) : Option Entry := m.find? (fun a => a.field == f)

/-- errorMap.set: replace the value at an existing key in place, else
append (a JavaScript Map preserves insertion order). -/
def mapSet (m : List Entry) (x : Entry) : List Entry :=
  if m.any (fun a => a.field == x.field) then
    m.map (fun a => if a.field == x.field then x else a)
  else m ++ [x]

/-- The guarded set of the keyword switch: overwrite the entry at the
derived field only when no entry exists or the existing priority is
strictly lower. -/
def mapInsert (m : List Entry) (x : Entry) : List Entry :=
  match mapGet m x.field with
  | none => mapSet m x
  | some ex => if ex.priority < x.priority then mapSet m x else m

/-- The entry the wrapped-additionalProperties branch sets (priority 2, no
path). -/
def wrappedEntry (n : NestedErr) : Entry :=
  let field := jsOr n.additionalProperty ""
  { field := field
    message := jsOr n.parentEMadditionalProperties ("The property '" ++ field ++ "' is not allowed")
    priority := 2, path := none }

/-- Whether a raw error takes the wrapped-additionalProperties early
branch (keyword errorMessage wrapping an additionalProperties failure). -/
def isWrappedAddProp (e : RawError) : Bool :=
  e.keyword == "errorMessage" &&
    (match e.nestedErrors with
     | some (n :: _) => n.keyword == "additionalProperties"
     | _ => false)

/-- One iteration of the errors.forEach loop: the wrapped branch calls
errorMap.set unconditionally; every other error goes through the keyword
switch and the priority-guarded set. -/
def processError (m : List Entry) (e : RawError) : List Entry :=
  if e.keyword == "errorMessage" then
    match e.nestedErrors with
    | some (n :: _) =>
        if n.keyword == "additionalProperties" then mapSet m (wrappedEntry n)
        else mapInsert m (switchEntry e)
    | _ => mapInsert m (switchEntry e)
  else mapInsert m (switchEntry e)

/-- The deduplicated error map after the forEach loop, as its ordered
value list. -/
def buildErrorMap (raw : List RawError) : List Entry := raw.foldl processError []

def thenSchemaMsg : String := "must match \"then\" schema"

/-- The descendance test of the first filter pass: either the candidate's
field string starts with the parent's field plus a dot, or both carry
paths and the candidate's is strictly longer with an equal dot-joined
prefix. -/
def isDescendantOf (child parent : Entry) : Bool :=
  strStartsWith child.field (parent.field ++ ".") ||
    (match child.path, parent.path with
     | some cp, some pp =>
         decide (pp.length < cp.length) && (joinSep "." (cp.take pp.length) == joinSep "." pp)
     | _, _ => false)

/-- First filter pass: drop a generic then-schema error when any other map
entry (surviving or not) passes the descendance test. -/
def filterPass1 (values : List Entry) : List Entry :=
  values.filter (fun e =>
    if e.message == thenSchemaMsg && e.field != "" then
      !(values.any (fun e2 => decide (e2 ≠ e) && isDescendantOf e2 e))
    else true)

/-- Final filter: keep entries with a nonempty field or priority above
1. -/
def filterPass2 (values : List Entry) : List Entry :=
  values.filter (fun e => e.field != "" || decide (1 < e.priority))

/-- The descending-priority order used by the final sort. -/
def priorityGE (a b : Entry) : Prop := b.priority ≤ a.priority

instance : DecidableRel priorityGE := fun a b => Nat.decLe b.priority a.priority

instance : IsTotal Entry priorityGE :=
  ⟨fun a b => Nat.le_total b.priority a.priority⟩

instance : IsTrans Entry priorityGE :=
  ⟨fun _ _ _ h1 h2 => Nat.le_trans h2 h1⟩

/-- The stable sort by descending priority (JavaScript Array.prototype.sort
is stable). -/
def sortByPriorityDesc (l : List Entry) : List Entry := List.insertionSort priorityGE l

/-- The normalizer pipeline on the deduplicated map values. -/
def formatAjvErrorsEntries (raw : List RawError) : List Entry :=
  sortByPriorityDesc (filterPass2 (filterPass1 (buildErrorMap raw)))

def entryToValidationError (e : Entry) : ValidationError :=
  { field := e.field, message := e.message, path := e.path }

/-- formatAjvErrors on a present raw-error list. -/
def formatAjvErrorsList (raw : List RawError) : List ValidationError :=
  (formatAjvErrorsEntries raw).map entryToValidationError

/-- formatAjvErrors; a null or undefined input short-circuits to the empty
list. -/
def formatAjvErrors (errors : Option (List RawError)) : List ValidationError :=
  match errors with
  | none => []
  | some raw => formatAjvErrorsList raw

/- ===== ajvSchemaValidator (validator module) ===== -/

/-- ajvSchemaValidator, modelled over the outcome of compiling and running
the AJV validator: an exception during compilation or execution (the catch
branch), or the raw error list of a completed run, which AJV leaves empty
exactly when the value validated.  The catch branch returns its result
directly, without calling formatAjvErrors. -/
def ajvSchemaValidator (outcome : Except String (List RawError)) : ValidationResult :=
  match outcome with
  | .error _ =>
      { isValid := false
        errors := some [{ field := "_schema", message := "Invalid schema configuration" }] }
  | .ok raw =>
      if raw.isEmpty then { isValid := true, errors := none }
      else { isValid := false, errors := some (formatAjvErrorsList raw) }

example : formatAjvErrors (some [{ keyword := "required", missingProperty := some "email" }]) =
    [{ field := "email", message := "The field 'email' is required", path := none }] := by rfl

example : formatAjvErrors
    (some [{ keyword := "type", instancePath := "/items/0/quantity", typeParam := some "number" }]) =
    [{ field := "items[0].quantity", message := "items[0].quantity must be a number"
       path := some ["items", "0", "quantity"] }] := by rfl

/- ===== Custom AJV keywords (validator module) ===== -/

namespace AjvValidator

/-- The TimeTarget interface of the validator module; TypeScript numbers
restricted to the integral durations the contract uses. -/
structure TimeTarget where
  resolveWithinUnit : String
  resolveWithinValue : Int
  respondWithinUnit : String
  respondWithinValue : Int
deriving DecidableEq

/-- The validator-local convertToMinutes helper: lower-case the unit and
scale months as 30 days, days as 24 hours, hours as 60 minutes. -/
def convertToMinutes (value : Int) (unit : String) : Int :=
  match jsToLower unit with
  | "months" => value * 30 * 24 * 60
  | "days" => value * 24 * 60
  | "hours" => value * 60
  | "minutes" => value
  | _ => value

/-- The validateTimeRelation keyword: empty arrays pass; otherwise no
element may have a resolve quantity at most its respond quantity. -/
def validateTimeRelation (data : List TimeTarget) : Bool :=
  if data.isEmpty then true
  else !(data.any (fun target =>
    decide (convertToMinutes target.resolveWithinValue target.resolveWithinUnit ≤
      convertToMinutes target.respondWithinValue target.respondWithinUnit)))

structure EscalationItem where
  escalationOrder : Int
deriving DecidableEq

/-- The validateUniqueEscalationOrders keyword: new Set(keys).size ===
keys.length, i.e. the extracted key list has no duplicate. -/
def validateUniqueEscalationOrders (data : List EscalationItem) : Bool :=
  if data.isEmpty then true
  else decide (data.map (fun item => item.escalationOrder)).Nodup

structure SeverityItem where
  severity : String
deriving DecidableEq

/-- The validateUniqueSeverityLevels keyword. -/
def validateUniqueSeverityLevels (data : List SeverityItem) : Bool :=
  if data.isEmpty then true
  else decide (data.map (fun item => item.severity)).Nodup

structure PolicyItem where
  policyId : String
deriving DecidableEq

/-- The validateUniquePolicyIds keyword. -/
def validateUniquePolicyIds (data : List PolicyItem) : Bool :=
  if data.isEmpty then true
  else decide (data.map (fun item => item.policyId)).Nodup

structure PositionItem where
  position : Int
deriving DecidableEq

/-- The validateUniquePositions keyword. -/
def validateUniquePositions (data : List PositionItem) : Bool :=
  if data.isEmpty then true
  else decide (data.map (fun item => item.position)).Nodup

structure TicketItem where
  ticketId : String
deriving DecidableEq

/-- The validateUniqueTicketIds keyword. -/
def validateUniqueTicketIds (data : List TicketItem) : Bool :=
  if data.isEmpty then true
  else decide (data.map (fun item => item.ticketId)).Nodup

structure FieldOptionItem where
  name : String
deriving DecidableEq

/-- The validateUniqueFieldOptionNames keyword: names compared
case-insensitively. -/
def validateUniqueFieldOptionNames (data : List FieldOptionItem) : Bool :=
  if data.isEmpty then true
  else decide (data.map (fun item => jsToLower item.name)).Nodup

structure FieldOrderItem where
  order : Int
deriving DecidableEq

/-- Each order equals the previous plus one, in array order. -/
def ordersSequential : List Int → Bool
  | [] => true
  | [_] => true
  | a :: b :: rest => b == a + 1 && ordersSequential (b :: rest)

/-- The validateFieldOptionOrders keyword: empty arrays pass; otherwise
the first order must be 1 and each subsequent order the previous plus
1 (no sorting). -/
def validateFieldOptionOrders (data : List FieldOrderItem) : Bool :=
  match data.map (fun item => item.order) with
  | [] => true
  | o :: rest => o == 1 && ordersSequential (o :: rest)

structure TimeRange where
  startTime : String
  endTime : String
deriving DecidableEq

/-- JavaScript Number on the digit strings produced by splitting an
HH:MM[:SS] time on colons: the empty string converts to 0, a digit string
to its value, anything else to NaN (modelled as none). -/
def jsNumber (s : String) : Option Int :=
  if s == "" then some 0
  else if s.data.all Char.isDigit then
    some (s.data.foldl (fun acc c => acc * 10 + (Int.ofNat (c.toNat - '0'.toNat))) 0)
  else none

/-- Minute-of-day of a time string: Number of the first two
colon-separated parts combined as hours * 60 + minutes; NaN propagates. -/
def minuteOfDay (s : String) : Option Int :=
  match jsSplit ':' s with
  | h :: m :: _ =>
      match jsNumber h, jsNumber m with
      | some a, some b => some (a * 60 + b)
      | _, _ => none
  | _ => none

/-- The validateTimeRange keyword: vacuously true when either side is
empty; otherwise start strictly before end (a NaN comparison is false in
JavaScript). -/
def validateTimeRange (data : TimeRange) : Bool :=
  if data.startTime == "" || data.endTime == "" then true
  else
    match minuteOfDay data.startTime, minuteOfDay data.endTime with
    | some s, some e => decide (s < e)
    | _, _ => false

/-- ASCII whitespace, as removed by String.prototype.trim. -/
def isWhitespaceChar (c : Char) : Bool :=
  c == ' ' || c == '\t' || c == '\n' || c == '\r'

/-- JavaScript String.prototype.trim on ASCII whitespace. -/
def jsTrim (s : String) : String :=
  String.mk (((s.data.dropWhile isWhitespaceChar).reverse.dropWhile isWhitespaceChar).reverse)

/-- The isNotEmpty keyword: the trimmed string must be nonempty. -/
def isNotEmpty (data : String) : Bool := !(jsTrim data == "")

/-- The allowEmpty keyword: always valid. -/
def allowEmpty (data : String) : Bool :=
  match data with
  | _ => true

end AjvValidator

example : AjvValidator.convertToMinutes 2 "hours" = 120 := by rfl
example : AjvValidator.convertToMinutes 3 "MONTHS" = 129600 := by rfl
example : AjvValidator.validateTimeRelation
    [{ resolveWithinUnit := "minutes", resolveWithinValue := 30
       respondWithinUnit := "hours", respondWithinValue := 2 }] = false := by rfl
example : AjvValidator.validateFieldOptionOrders [⟨1⟩, ⟨2⟩, ⟨3⟩] = true := by rfl
example : AjvValidator.validateFieldOptionOrders [⟨2⟩, ⟨3⟩] = false := by rfl
example : AjvValidator.validateFieldOptionOrders [⟨1⟩, ⟨3⟩] = false := by rfl
example : AjvValidator.validateUniqueFieldOptionNames [⟨"Abc"⟩, ⟨"aBC"⟩] = false := by rfl
example : AjvValidator.validateTimeRange { startTime := "09:30", endTime := "10:00" } = true := by rfl
example : AjvValidator.validateTimeRange { startTime := "10:30", endTime := "10:00" } = false := by rfl

/- ===== Exported convertToMinutes (common-validations module) ===== -/

/-- The convertToMinutes helper exported from common-validations: hours
scale by 60, days by 24 * 60, every other unit (including months and
minutes) falls to the default branch and is returned unchanged; the unit
is not lower-cased here. -/
def convertToMinutes (value : Int) (unit : String) : Int :=
  match unit with
  | "hours" => value * 60
  | "days" => value * 24 * 60
  | _ => value

/- ===== CommonValidations schema-fragment factories ===== -/

namespace CommonValidations

structure StringArrayErrorMessages where
  type : Option String := none
  items : Option String := none
  minItems : Option String := none
  maxItems : Option String := none
deriving DecidableEq

/-- The options object of CommonValidations.stringArray. -/
structure StringArrayOptions where
  minItems : Option Int := none
  maxItems : Option Int := none
  notAllowSpecialChars : Option Bool := none
  errorMessages : Option StringArrayErrorMessages := none
deriving DecidableEq

/-- The item schema stringArray builds for each array element. -/
structure StringItemSchema where
  isNotEmpty : Bool
  pattern : Option String
  emType : String
  emIsNotEmpty : String
  emPattern : String
deriving DecidableEq

/-- The array schema fragment stringArray returns. -/
structure StringArraySchema where
  items : StringItemSchema
  minItems : Option Int
  maxItems : Option Int
  emType : String
  emMinItems : String
  emMaxItems : String
deriving DecidableEq

/-- JavaScript template interpolation of a possibly-undefined number. -/
def jsShowInt (o : Option Int) : String :=
  match o with
  | some n => toString n
  | none => "undefined"

/-- CommonValidations.stringArray.  Every other member access on options
in the factory is optional-chained, but the pattern line reads
options.notAllowSpecialChars directly, so the call throws a TypeError
when no options object is passed at all (modelled as the error branch);
with an options object present the factory always returns a fragment. -/
def stringArray (options : Option StringArrayOptions) : Except String StringArraySchema :=
  match options with
  | none =>
      Except.error "TypeError: Cannot read properties of undefined (reading 'notAllowSpecialChars')"
  | some o =>
      Except.ok
        { items :=
            { isNotEmpty := true
              pattern :=
                if o.notAllowSpecialChars.getD false then none
                else some "^[a-zA-Z0-9\\s_-]+$"
              emType := jsOr (o.errorMessages.bind (fun m => m.type)) "Must be an array of strings"
              emIsNotEmpty :=
                jsOr (o.errorMessages.bind (fun m => m.items)) "Array items cannot be empty strings"
              emPattern :=
                jsOr (o.errorMessages.bind (fun m => m.items))
                  "Array items cannot contain special characters or be empty" }
          minItems := o.minItems
          maxItems := o.maxItems
          emType := jsOr (o.errorMessages.bind (fun m => m.type)) "Must be an array of strings"
          emMinItems :=
            jsOr (o.errorMessages.bind (fun m => m.minItems))
              ("Must have at least " ++ jsShowInt o.minItems ++ " items")
          emMaxItems :=
            jsOr (o.errorMessages.bind (fun m => m.maxItems))
              ("Cannot exceed " ++ jsShowInt o.maxItems ++ " items") }

end CommonValidations

/- ===== fieldDefinitionValidation (discriminated union, common-validations) ===== -/

/-- Wire-format JSON values, as far as the fieldDefinitionValidation
schema inspects them. -/
inductive JsonVal where
  | null : JsonVal
  | bool (b : Bool) : JsonVal
  | num (n : Int) : JsonVal
  | str (s : String) : JsonVal
  | arr (xs : List JsonVal) : JsonVal
  | obj (fields : List (String × JsonVal)) : JsonVal

/-- Property lookup on a JSON object node (object literals in the API
carry distinct keys). -/
def lookupField : List (String × JsonVal) → String → Option JsonVal
  | [], _ => none
  | (k, v) :: rest, key => if k == key then some v else lookupField rest key

/-- Hexadecimal digit after ASCII lower-casing. -/
def isHexChar (c : Char) : Bool := c.isDigit || ('a' ≤ c && c ≤ 'f')

/-- The uuid format check of ajv-formats: case-insensitive, optional
urn:uuid: prefix, five dash-separated hex groups of lengths
8, 4, 4, 4, 12. -/
def isUuid (s : String) : Bool :=
  let t := jsToLower s
  let t := if strStartsWith t "urn:uuid:" then String.mk (t.data.drop 9) else t
  match jsSplit '-' t with
  | [a, b, c, d, e] =>
      a.data.length == 8 && b.data.length == 4 && c.data.length == 4 &&
      d.data.length == 4 && e.data.length == 12 &&
      (a.data.all isHexChar && b.data.all isHexChar && c.data.all isHexChar &&
       d.data.all isHexChar && e.data.all isHexChar)
  | _ => false

def isStr : JsonVal → Bool
  | .str _ => true
  | _ => false

def isNum : JsonVal → Bool
  | .num _ => true
  | _ => false

/-- type: array with string items. -/
def isStringArray : JsonVal → Bool
  | .arr xs => xs.all isStr
  | _ => false

def isUuidStr : JsonVal → Bool
  | .str s => isUuid s
  | _ => false

/-- type: array with uuid-format string items. -/
def isUuidArray : JsonVal → Bool
  | .arr xs => xs.all isUuidStr
  | _ => false

/-- One allOf conditional branch of fieldDefinitionValidation: the
discriminator literal, the shape required of selectedValue when present,
and the branch's override error message. -/
structure FieldDefBranch where
  lit : String
  check : JsonVal → Bool
  msg : String

/-- The eight conditional branches, in schema order. -/
def fieldDefBranches : List FieldDefBranch :=
  [ { lit := "label", check := isStringArray
      msg := "Selected value for label fields must be an array of strings" }
  , { lit := "dropdown", check := isStringArray
      msg := "Selected value for dropdown fields must be an array of strings" }
  , { lit := "text", check := isStr
      msg := "Selected value for text fields must be a string" }
  , { lit := "textarea", check := isStr
      msg := "Selected value for textarea fields must be a string" }
  , { lit := "date", check := isNum
      msg := "Selected value for date fields must be a number" }
  , { lit := "number", check := isNum
      msg := "Selected value for number fields must be a number" }
  , { lit := "files", check := isUuidArray
      msg := "Selected value for files fields must be an array of UUIDs" }
  , { lit := "people", check := isUuidArray
      msg := "Selected value for people fields must be an array of UUIDs" } ]

/-- Evaluation of one branch on the object's properties: the if clause
requires fieldType present and equal to the branch literal; the then
clause constrains selectedValue only when that property is present
(JSON Schema properties ignore absent keys), producing the branch's
override message on failure. -/
def branchErrors (fields : List (String × JsonVal)) (b : FieldDefBranch) : List String :=
  match lookupField fields "fieldType" with
  | some (.str t) =>
      if t == b.lit then
        match lookupField fields "selectedValue" with
        | none => []
        | some sv => if b.check sv then [] else [b.msg]
      else []
  | _ => []

/-- The error messages of validating a value against the
fieldDefinitionValidation schema built over the given fieldType enum
values: the top-level object requires customFieldDefinitionId (a
uuid-format string) and fieldType (a member of the enum), leaves
selectedValue optional and unconstrained at the top level, and conjoins
the eight conditional branches. -/
def fieldDefErrors (enumVals : List String) (v : JsonVal) : List String :=
  match v with
  | .obj fields =>
      (match lookupField fields "customFieldDefinitionId" with
       | none => ["The field 'customFieldDefinitionId' is required"]
       | some (.str s) => if isUuid s then [] else ["Must be a valid UUID"]
       | some _ => ["Please enter a valid ID"]) ++
      (match lookupField fields "fieldType" with
       | none => ["The field 'fieldType' is required"]
       | some (.str t) =>
           if enumVals.contains t then []
           else ["Invalid field type. Must be one of: " ++ joinSep ", " enumVals]
       | some _ => ["Field type must be a valid enum value"]) ++
      (fieldDefBranches.foldr (fun b acc => branchErrors fields b ++ acc) [])
  | _ => ["must be object"]

/-- isValid of validating against fieldDefinitionValidation: no error. -/
def fieldDefinitionValid (enumVals : List String) (v : JsonVal) : Bool :=
  (fieldDefErrors enumVals v).isEmpty

/-- The fieldType enum the validator tests build the schema over
(Object.values order). -/
def testFieldTypeEnum : List String :=
  ["label", "text", "textarea", "date", "people", "number", "dropdown"]

example : isUuid "123e4567-e89b-12d3-a456-426614174000" = true := by rfl
example : isUuid "not-a-uuid" = false := by rfl
example : fieldDefinitionValid testFieldTypeEnum
    (.obj [("customFieldDefinitionId", .str "123e4567-e89b-12d3-a456-426614174000"),
           ("fieldType", .str "number"), ("selectedValue", .num 42)]) = true := by rfl
example : fieldDefErrors testFieldTypeEnum
    (.obj [("customFieldDefinitionId", .str "123e4567-e89b-12d3-a456-426614174000"),
           ("fieldType", .str "number"), ("selectedValue", .str "42")]) =
    ["Selected value for number fields must be a number"] := by rfl
example : fieldDefinitionValid testFieldTypeEnum
    (.obj [("fieldType", .str "number"), ("selectedValue", .num 42)]) = false := by rfl

/- ===== Concrete inputs used by the claim theorems ===== -/

/-- A root-level custom-keyword raw error: keyword unknown to the switch,
empty instance path. -/
def timeRelationRawError : RawError :=
  { keyword := "validateTimeRelation"
    message := some "Resolution time must be strictly greater than response time for each severity level" }

/-- A single time target whose resolve quantity (30 minutes) is below its
respond quantity (2 hours). -/
def failingSingleTarget : AjvValidator.TimeTarget :=
  { resolveWithinUnit := "minutes", resolveWithinValue := 30
    respondWithinUnit := "hours", respondWithinValue := 2 }

/-- Respond 1 day versus resolve 24 hours: equal quantities. -/
def equalQuantityTarget : AjvValidator.TimeTarget :=
  { resolveWithinUnit := "hours", resolveWithinValue := 24
    respondWithinUnit := "days", respondWithinValue := 1 }

def fdNumberNoCid : JsonVal :=
  .obj [("fieldType", .str "number"), ("selectedValue", .num 42)]

def validCidStr : String := "123e4567-e89b-12d3-a456-426614174000"

def fdNumberStrVal : JsonVal :=
  .obj [("customFieldDefinitionId", .str validCidStr),
        ("fieldType", .str "number"), ("selectedValue", .str "42")]

def fdNumberNumVal : JsonVal :=
  .obj [("customFieldDefinitionId", .str validCidStr),
        ("fieldType", .str "number"), ("selectedValue", .num 42)]

def fdNumberNoVal : JsonVal :=
  .obj [("customFieldDefinitionId", .str validCidStr),
        ("fieldType", .str "number")]

/- ===== Claim theorems ===== -/

/-- C1 counterexample: a run that fails with a single root-level
custom-keyword raw error (as produced by validating a failing array
against a schema whose root carries validateTimeRelation) yields isValid
false together with an empty, non-null error list — the anonymous
priority-1 entry is dropped by the normalizer's final filter — so
isValid === true is not equivalent to errors being null or empty. -/
theorem c1_counterexample :
    (ajvSchemaValidator (Except.ok [timeRelationRawError])).isValid = false ∧
    (ajvSchemaValidator (Except.ok [timeRelationRawError])).errors = some [] :=
  ⟨rfl, rfl⟩

/-- C1 (amended): for every outcome, the ValidationResult returned by
ajvSchemaValidator satisfies isValid = true exactly when errors is null;
the errors list of a failing result may be empty. -/
theorem c1_isValid_iff_errors_null (outcome : Except String (List RawError)) :
    (ajvSchemaValidator outcome).isValid = true ↔ (ajvSchemaValidator outcome).errors = none := by
  cases outcome with
  | error e => simp [ajvSchemaValidator]
  | ok raw => by_cases h : raw.isEmpty <;> simp [ajvSchemaValidator, h]

/-- C2: when compilation (or execution) of the schema fails, the catch
branch of ajvSchemaValidator — which is total and returns its result
directly, without calling formatAjvErrors — produces isValid false with
exactly the single error field "_schema", message "Invalid schema
configuration". -/
theorem c2_compile_failure (msg : String) :
    ajvSchemaValidator (Except.error msg) =
      { isValid := false
        errors := some [{ field := "_schema", message := "Invalid schema configuration" }] } :=
  rfl

/-- C3 counterexample: validateTimeRelation rejects a one-element array
(resolve 30 minutes versus respond 2 hours), so not every keyword accepts
every 0- or 1-item collection. -/
theorem c3_counterexample :
    AjvValidator.validateTimeRelation [failingSingleTarget] = false :=
  rfl

/-- C3 (amended): every array-typed keyword accepts the empty array, the
uniqueness family also accepts every one-element array, validateTimeRange
accepts whenever either time string is empty and allowEmpty always
accepts; but validateTimeRelation and validateFieldOptionOrders may
reject a one-element array, and isNotEmpty rejects the empty string by
design. -/
theorem c3_vacuous_truth :
    AjvValidator.validateTimeRelation [] = true ∧
    AjvValidator.validateFieldOptionOrders [] = true ∧
    AjvValidator.validateUniqueEscalationOrders [] = true ∧
    (∀ x, AjvValidator.validateUniqueEscalationOrders [x] = true) ∧
    AjvValidator.validateUniqueSeverityLevels [] = true ∧
    (∀ x, AjvValidator.validateUniqueSeverityLevels [x] = true) ∧
    AjvValidator.validateUniquePolicyIds [] = true ∧
    (∀ x, AjvValidator.validateUniquePolicyIds [x] = true) ∧
    AjvValidator.validateUniquePositions [] = true ∧
    (∀ x, AjvValidator.validateUniquePositions [x] = true) ∧
    AjvValidator.validateUniqueTicketIds [] = true ∧
    (∀ x, AjvValidator.validateUniqueTicketIds [x] = true) ∧
    AjvValidator.validateUniqueFieldOptionNames [] = true ∧
    (∀ x, AjvValidator.validateUniqueFieldOptionNames [x] = true) ∧
    (∀ s, AjvValidator.validateTimeRange { startTime := "", endTime := s } = true) ∧
    (∀ s, AjvValidator.validateTimeRange { startTime := s, endTime := "" } = true) ∧
    (∀ s, AjvValidator.allowEmpty s = true) ∧
    AjvValidator.validateFieldOptionOrders [{ order := 2 }] = false ∧
    AjvValidator.isNotEmpty "" = false := by
  refine ⟨rfl, rfl, rfl, ?_, rfl, ?_, rfl, ?_, rfl, ?_, rfl, ?_, rfl, ?_, ?_, ?_, ?_, rfl, rfl⟩
  · intro x; simp [AjvValidator.validateUniqueEscalationOrders]
  · intro x; simp [AjvValidator.validateUniqueSeverityLevels]
  · intro x; simp [AjvValidator.validateUniquePolicyIds]
  · intro x; simp [AjvValidator.validateUniquePositions]
  · intro x; simp [AjvValidator.validateUniqueTicketIds]
  · intro x; simp [AjvValidator.validateUniqueFieldOptionNames]
  · intro s; rfl
  · intro s; simp [AjvValidator.validateTimeRange]
  · intro s; rfl

/-- C4 (code bug): with no options argument at all the stringArray
factory throws, because the pattern line reads
options.notAllowSpecialChars without optional chaining — the only such
access in the factory, and its own doc example calls stringArray() with
no argument; any provided options object yields a fragment. -/
theorem c4_stringArray_throws_without_options :
    CommonValidations.stringArray none =
      Except.error "TypeError: Cannot read properties of undefined (reading 'notAllowSpecialChars')" ∧
    ∀ o, ∃ s, CommonValidations.stringArray (some o) = Except.ok s :=
  ⟨rfl, fun _ => ⟨_, rfl⟩⟩

/-- C5: the validator-local converter maps minutes, hours, days and
months to the minute scale as 1, 60, 1440 and 43200, and the
validateTimeRelation keyword accepts an array exactly when every
element's resolve quantity is strictly greater than its respond quantity;
respond 1 day versus resolve 24 hours (equal quantities) is rejected. -/
theorem c5_time_relation_semantics :
    (∀ v : Int, AjvValidator.convertToMinutes v "minutes" = v) ∧
    (∀ v : Int, AjvValidator.convertToMinutes v "hours" = v * 60) ∧
    (∀ v : Int, AjvValidator.convertToMinutes v "days" = v * 1440) ∧
    (∀ v : Int, AjvValidator.convertToMinutes v "months" = v * 43200) ∧
    (∀ data : List AjvValidator.TimeTarget,
      AjvValidator.validateTimeRelation data = true ↔
        ∀ t ∈ data,
          AjvValidator.convertToMinutes t.respondWithinValue t.respondWithinUnit <
            AjvValidator.convertToMinutes t.resolveWithinValue t.resolveWithinUnit) ∧
    AjvValidator.validateTimeRelation [equalQuantityTarget] = false := by
  refine ⟨fun v => rfl, fun v => rfl, ?_, ?_, ?_, rfl⟩
  · intro v
    have h : AjvValidator.convertToMinutes v "days" = v * 24 * 60 := rfl
    rw [h]; ring
  · intro v
    have h : AjvValidator.convertToMinutes v "months" = v * 30 * 24 * 60 := rfl
    rw [h]; ring
  · intro data
    by_cases h : data.isEmpty
    · rw [List.isEmpty_iff] at h
      subst h
      simp [AjvValidator.validateTimeRelation]
    · simp [AjvValidator.validateTimeRelation, h, List.any_eq_true, not_le]

/-- C8 counterexample: the claim's instance {fieldType: "number",
selectedValue: 42} is rejected by the fieldDefinitionValidation schema,
because the top-level object also requires customFieldDefinitionId. -/
theorem c8_counterexample :
    fieldDefinitionValid testFieldTypeEnum fdNumberNoCid = false :=
  rfl

/-- C8 (amended): with the required customFieldDefinitionId supplied as a
valid UUID, {fieldType: "number", selectedValue: "42"} is invalid with
exactly the message "Selected value for number fields must be a number",
{fieldType: "number", selectedValue: 42} is valid, and omitting
selectedValue is valid; the claim's original instances, which omit
customFieldDefinitionId, are all invalid. -/
theorem c8_number_field_discrimination :
    fieldDefErrors testFieldTypeEnum fdNumberStrVal =
      ["Selected value for number fields must be a number"] ∧
    fieldDefinitionValid testFieldTypeEnum fdNumberNumVal = true ∧
    fieldDefinitionValid testFieldTypeEnum fdNumberNoVal = true :=
  ⟨rfl, rfl, rfl⟩

/-- C9: formatAjvErrors maps an absent (null or undefined) raw-error list
to the empty list instead of throwing. -/
theorem c9_formatAjvErrors_absent : formatAjvErrors none = [] := rfl

/-- C10: the exported convertToMinutes returns the value unchanged for
every unit other than "hours" and "days" (including "months" and
"minutes"); the validator-local converter lower-cases its unit and scales
months by 43200, so the two converters disagree on "months". -/
theorem c10_two_converters :
    (∀ (v : Int) (u : String), u ≠ "hours" → u ≠ "days" → convertToMinutes v u = v) ∧
    (∀ v : Int, AjvValidator.convertToMinutes v "months" = v * 43200) ∧
    (∀ v : Int, AjvValidator.convertToMinutes v "MONTHS" = v * 43200) ∧
    convertToMinutes 1 "months" ≠ AjvValidator.convertToMinutes 1 "months" := by
  refine ⟨?_, ?_, ?_, by decide⟩
  · intro v u h1 h2
    unfold convertToMinutes
    split <;> simp_all
  · intro v
    have h : AjvValidator.convertToMinutes v "months" = v * 30 * 24 * 60 := rfl
    rw [h]; ring
  · intro v
    have h : AjvValidator.convertToMinutes v "MONTHS" = v * 30 * 24 * 60 := rfl
    rw [h]; ring

/-- C10 witness: the exported converter leaves 7 months unchanged. -/
theorem c10_witness : convertToMinutes 7 "months" = 7 :=
  c10_two_converters.1 7 "months" (by decide) (by decide)

/- ===== Lemmas on the normalizer map pipeline (shared) ===== -/

lemma map_field_replace (m : List Entry) (x : Entry) :
    (m.map (fun a => if a.field == x.field then x else a)).map Entry.field =
      m.map Entry.field := by
  induction m with
  | nil => rfl
  | cons a t ih =>
      simp only [List.map_cons, ih]
      by_cases h : a.field == x.field
      · have hx : a.field = x.field := by simpa using h
        simp [h, hx]
      · simp [h]

lemma nodup_field_mapSet (m : List Entry) (x : Entry)
    (h : (m.map Entry.field).Nodup) : ((mapSet m x).map Entry.field).Nodup := by
  unfold mapSet
  by_cases hc : m.any (fun a => a.field == x.field)
  · rw [if_pos hc, map_field_replace]
    exact h
  · rw [if_neg hc, List.map_append]
    simp only [List.map_cons, List.map_nil]
    refine List.Nodup.append h (List.nodup_singleton _) ?_
    intro a ha hb
    simp only [List.mem_singleton] at hb
    subst hb
    simp only [List.any_eq_true, not_exists] at hc
    simp only [List.mem_map] at ha
    obtain ⟨e, he, hef⟩ := ha
    exact hc e ⟨he, by simp [hef]⟩

lemma nodup_field_mapInsert (m : List Entry) (x : Entry)
    (h : (m.map Entry.field).Nodup) : ((mapInsert m x).map Entry.field).Nodup := by
  unfold mapInsert
  cases hg : mapGet m x.field with
  | none => exact nodup_field_mapSet m x h
  | some ex =>
      by_cases hp : ex.priority < x.priority
      · simpa [hp] using nodup_field_mapSet m x h
      · simpa [hp] using h

lemma nodup_field_processError (m : List Entry) (e : RawError)
    (h : (m.map Entry.field).Nodup) : ((processError m e).map Entry.field).Nodup := by
  unfold processError
  by_cases h1 : e.keyword == "errorMessage"
  · rw [if_pos h1]
    cases hne : e.nestedErrors with
    | none => exact nodup_field_mapInsert m _ h
    | some l =>
        cases l with
        | nil => exact nodup_field_mapInsert m _ h
        | cons n t =>
            by_cases h2 : n.keyword == "additionalProperties"
            · simpa [h2] using nodup_field_mapSet m (wrappedEntry n) h
            · simpa [h2] using nodup_field_mapInsert m (switchEntry e) h
  · rw [if_neg h1]; exact nodup_field_mapInsert m _ h

lemma nodup_field_foldl (raw : List RawError) (m : List Entry)
    (h : (m.map Entry.field).Nodup) : ((raw.foldl processError m).map Entry.field).Nodup := by
  induction raw generalizing m with
  | nil => exact h
  | cons e t ih => exact ih (processError m e) (nodup_field_processError m e h)

lemma nodup_field_buildErrorMap (raw : List RawError) :
    ((buildErrorMap raw).map Entry.field).Nodup :=
  nodup_field_foldl raw [] (by simp)

lemma processError_not_wrapped (m : List Entry) (e : RawError)
    (hw : isWrappedAddProp e = false) :
    processError m e = mapInsert m (switchEntry e) := by
  unfold processError
  by_cases h1 : e.keyword == "errorMessage"
  · rw [if_pos h1]
    unfold isWrappedAddProp at hw
    rw [h1] at hw
    simp only [Bool.true_and] at hw
    cases hne : e.nestedErrors with
    | none => rfl
    | some l =>
        cases l with
        | nil => rfl
        | cons n t =>
            rw [hne] at hw
            have hw2 : (n.keyword == "additionalProperties") = false := hw
            show (if (n.keyword == "additionalProperties") = true then mapSet m (wrappedEntry n)
                  else mapInsert m (switchEntry e)) = mapInsert m (switchEntry e)
            rw [if_neg (by simp [hw2])]
  · rw [if_neg h1]

/- ===== C6 ===== -/

/-- A format raw error for field x (priority 3 in the normalizer). -/
def formatRawX : RawError :=
  { keyword := "format", instancePath := "/x", formatParam := some "email" }

/-- A wrapped additionalProperties raw error for the same field x
(priority 2). -/
def wrappedAddPropX : RawError :=
  { keyword := "errorMessage"
    nestedErrors := some [{ keyword := "additionalProperties", additionalProperty := some "x" }] }

/-- C6 counterexample: the wrapped-additionalProperties branch calls
errorMap.set unconditionally, so a later priority-2 error replaces an
earlier priority-3 error for the same field, contradicting the rule that
a later error replaces an earlier one only at strictly higher
priority. -/
theorem c6_counterexample :
    formatAjvErrorsEntries [formatRawX, wrappedAddPropX] =
      [{ field := "x", message := "The property 'x' is not allowed", priority := 2, path := none }] ∧
    formatAjvErrorsEntries [formatRawX] =
      [{ field := "x", message := "Please enter a valid email address", priority := 3
         path := some ["x"] }] :=
  ⟨rfl, rfl⟩

/-- C6 (amended): the final entry list holds at most one entry per
distinct derived field and is sorted by descending priority, and every
raw error handled by the keyword switch replaces an existing entry for
its field only at strictly higher priority (so on a tie the first-seen
error survives); only the wrapped-additionalProperties branch overwrites
unconditionally. -/
theorem c6_dedup_and_sort :
    (∀ raw, ((formatAjvErrorsEntries raw).map Entry.field).Nodup) ∧
    (∀ raw, List.Sorted priorityGE (formatAjvErrorsEntries raw)) ∧
    (∀ (m : List Entry) (e : RawError) (ex : Entry),
      isWrappedAddProp e = false →
      mapGet m (switchEntry e).field = some ex →
      (switchEntry e).priority ≤ ex.priority →
      processError m e = m) := by
  refine ⟨?_, ?_, ?_⟩
  · intro raw
    have hbase := nodup_field_buildErrorMap raw
    have h1 : ((filterPass1 (buildErrorMap raw)).map Entry.field).Nodup := by
      unfold filterPass1
      exact hbase.sublist (List.Sublist.map Entry.field (List.filter_sublist _))
    have h2 : ((filterPass2 (filterPass1 (buildErrorMap raw))).map Entry.field).Nodup := by
      unfold filterPass2
      exact h1.sublist (List.Sublist.map Entry.field (List.filter_sublist _))
    have hperm :
        List.Perm ((formatAjvErrorsEntries raw).map Entry.field)
          ((filterPass2 (filterPass1 (buildErrorMap raw))).map Entry.field) :=
      (List.perm_insertionSort priorityGE _).map Entry.field
    exact hperm.nodup_iff.mpr h2
  · intro raw
    exact List.sorted_insertionSort priorityGE _
  · intro m e ex hw hget hp
    rw [processError_not_wrapped m e hw]
    unfold mapInsert
    rw [hget]
    show (if ex.priority < (switchEntry e).priority then mapSet m (switchEntry e) else m) = m
    rw [if_neg (Nat.not_lt.mpr hp)]

/-- An existing map entry for field y at priority 2. -/
def tieEntry : Entry := { field := "y", message := "first", priority := 2, path := none }

/-- A later enum raw error deriving the same field y at the same
priority 2. -/
def tieRaw : RawError :=
  { keyword := "enum", instancePath := "/y", allowedValues := some ["a"] }

/-- C6 witness: on a priority tie the first-seen entry survives
unchanged. -/
theorem c6_witness : processError [tieEntry] tieRaw = [tieEntry] :=
  c6_dedup_and_sort.2.2 [tieEntry] tieRaw tieEntry rfl rfl (by decide)

/- ===== C7 ===== -/

/-- A generic then-schema error at field a. -/
def thenRawA : RawError :=
  { keyword := "if", instancePath := "/a", message := some "must match \"then\" schema" }

/-- A required raw error at instance path /a/b with no missingProperty:
its derived field is empty (so it cannot survive the final filter) but
its stored path descends from /a. -/
def requiredNoNameAB : RawError :=
  { keyword := "required", instancePath := "/a/b" }

/-- The map entry of thenRawA. -/
def thenEntryA : Entry :=
  { field := "a", message := "must match \"then\" schema", priority := 1, path := some ["a"] }

/-- C7 counterexample: the generic then-schema error for field a is
removed even though the final error list is empty — the removing witness
is checked against the pre-filter map values and is itself dropped by the
final filter, so removal is not equivalent to a surviving descendant
error. -/
theorem c7_counterexample :
    formatAjvErrors (some [thenRawA, requiredNoNameAB]) = [] ∧
    formatAjvErrors (some [thenRawA]) =
      [{ field := "a", message := "must match \"then\" schema", path := some ["a"] }] :=
  ⟨rfl, rfl⟩

/-- The generic conditional-branch error of a failing then schema on an
array element. -/
def thenBranchIfRaw : RawError :=
  { keyword := "if", instancePath := "/listOfFieldDefinition/0"
    message := some "must match \"then\" schema" }

/-- The child type failure inside the same then branch. -/
def thenBranchChildRaw : RawError :=
  { keyword := "type", instancePath := "/listOfFieldDefinition/0/selectedValue"
    typeParam := some "number"
    parentEMtype := some "Selected value for number fields must be a number" }

/-- The surviving child entry of thenBranchChildRaw. -/
def childEntryC7 : Entry :=
  { field := "listOfFieldDefinition[0].selectedValue"
    message := "Selected value for number fields must be a number"
    priority := 2
    path := some ["listOfFieldDefinition", "0", "selectedValue"] }

/-- C7 (amended): a then-schema entry with a nonempty field survives the
normalizer exactly when no other entry of the deduplicated pre-filter map
(surviving or not) passes the code's descendance test — field string
prefix with a dot, or a strictly longer path with equal dot-joined
prefix; in the typical conditional-branch case only the child's specific
error remains. -/
theorem c7_then_filter_characterization :
    (∀ (raw : List RawError) (e : Entry),
      e.message = thenSchemaMsg → e.field ≠ "" →
      (e ∈ formatAjvErrorsEntries raw ↔
        e ∈ buildErrorMap raw ∧
          ¬∃ e2 ∈ buildErrorMap raw, e2 ≠ e ∧ isDescendantOf e2 e = true)) ∧
    formatAjvErrorsEntries [thenBranchIfRaw, thenBranchChildRaw] = [childEntryC7] := by
  refine ⟨?_, rfl⟩
  intro raw e hmsg hfield
  unfold formatAjvErrorsEntries sortByPriorityDesc
  rw [(List.perm_insertionSort priorityGE _).mem_iff]
  unfold filterPass2 filterPass1
  rw [List.mem_filter, List.mem_filter]
  have hmsgb : (e.message == thenSchemaMsg) = true := by simp [hmsg]
  have hfieldb : (e.field != "") = true := by simp [hfield]
  simp only [hmsgb, hfieldb, Bool.and_self, if_true, Bool.true_and, Bool.or_eq_true,
    decide_eq_true_eq, List.any_eq_true, Bool.not_eq_true', Bool.and_eq_true]
  constructor
  · rintro ⟨⟨hmem, hany⟩, _⟩
    refine ⟨hmem, ?_⟩
    rintro ⟨e2, he2, hne, hdesc⟩
    rw [List.any_eq_false] at hany
    have h2 := hany e2 he2
    rw [hdesc, Bool.and_true] at h2
    exact h2 (decide_eq_true hne)
  · rintro ⟨hmem, hnone⟩
    refine ⟨⟨hmem, ?_⟩, Or.inl (by simp [hfield])⟩
    rw [List.any_eq_false]
    intro e2 he2
    by_cases hne : e2 = e
    · simp [hne]
    · have hd : isDescendantOf e2 e = false := by
        by_contra hdt
        rw [Bool.not_eq_false] at hdt
        exact hnone ⟨e2, he2, hne, hdt⟩
      simp [hne, hd]

/-- C7 witness: a lone then-schema error survives exactly under the
characterization's condition. -/
theorem c7_witness :
    thenEntryA ∈ formatAjvErrorsEntries [thenRawA] ↔
      thenEntryA ∈ buildErrorMap [thenRawA] ∧
        ¬∃ e2 ∈ buildErrorMap [thenRawA], e2 ≠ thenEntryA ∧ isDescendantOf e2 thenEntryA = true :=
  c7_then_filter_characterization.1 [thenRawA] thenEntryA rfl (by decide)
